import Mathlib

/-!
Verification of the sentra sampling/ingestion pipeline.

Shallow embedding of the repository sources:
- `src/api/datastore.py` — MySQL persistence layer (`init_db_if_needed`,
  `insert_snapshot`, `get_cpu_mem_history`, `purge_before`);
- `src/collector/agent.py` — the headless sampler loop (`main`);
- `src/config/config.py` — the connection configuration; the fact used here
  is that `get_db_config` sets `autocommit = False`, so the statements a
  datastore function issues on one connection become visible only at its
  single `conn.commit()` call.

MySQL `DOUBLE` values are modelled as `ℚ`, `BIGINT`/`INT` as `Int`, `TEXT`
as `String`.  The six series tables are lists of typed rows; a connection is
modelled as a pair of database states (committed, working): statements
mutate the working copy and `commit` publishes it, which is how InnoDB
transactions behave with `autocommit` disabled.  A crash after `k` issued
statements leaves exactly the committed state visible.

The rate-derivation code (`collector/logger.py` and its collectors) is not
part of the sources under `src/`; it is modelled from the spec where needed
(see `rateStep` below).
-/

namespace Sentra

/-- Python `int(x)` applied to a (real-valued) timestamp, as used by
`int(snapshot["ts"])`, `int(time.time() - minutes * 60)` and
`int(cutoff_ts)` in `datastore.py`: truncation toward zero. -/
def pyInt (q : ℚ) : Int := Int.tdiv q.num q.den

/-- One row of `cpu_samples` (schema from `init_db_if_needed`).  `per_core`
is stored as `json.dumps(cpu["per_core"])`; the serialized list is kept as
the list itself.  `user_pct`/`system_pct` come from `breakdown.get(...)`
and may be NULL. -/
structure CpuRow where
  ts : Int
  total_util : ℚ
  iowait : ℚ
  per_core : List ℚ
  cpu_temp : ℚ
  load1 : ℚ
  load5 : ℚ
  load15 : ℚ
  uptime_sec : ℚ
  user_pct : Option ℚ
  system_pct : Option ℚ
deriving DecidableEq, Repr

/-- One row of `mem_samples`. -/
structure MemRow where
  ts : Int
  used_percent : ℚ
  used_bytes : Int
  total_bytes : Int
  swap_used_percent : ℚ
deriving DecidableEq, Repr

/-- One row of `gpu_samples`. -/
structure GpuRow where
  ts : Int
  gpu_index : Int
  temp : ℚ
  util : ℚ
  power_w : ℚ
  vram_used_mb : Int
  vram_total_mb : Int
  fan_percent : ℚ
deriving DecidableEq, Repr

/-- One row of `disk_samples`. -/
structure DiskRow where
  ts : Int
  device : String
  read_bps : ℚ
  write_bps : ℚ
  usage_percent : ℚ
deriving DecidableEq, Repr

/-- One row of `net_samples`. -/
structure NetRow where
  ts : Int
  iface : String
  rx_bps : ℚ
  tx_bps : ℚ
deriving DecidableEq, Repr

/-- One row of `fan_samples`. -/
structure FanRow where
  ts : Int
  label : String
  rpm : ℚ
deriving DecidableEq, Repr

/-- The contents of the six series tables of the sentra database. -/
structure DB where
  cpu_samples : List CpuRow
  mem_samples : List MemRow
  gpu_samples : List GpuRow
  disk_samples : List DiskRow
  net_samples : List NetRow
  fan_samples : List FanRow
deriving DecidableEq, Repr

/-- The empty database. -/
def DB.empty : DB := ⟨[], [], [], [], [], []⟩

/-- Per-table concatenation of database contents. -/
def DB.append (a b : DB) : DB :=
  ⟨a.cpu_samples ++ b.cpu_samples, a.mem_samples ++ b.mem_samples,
   a.gpu_samples ++ b.gpu_samples, a.disk_samples ++ b.disk_samples,
   a.net_samples ++ b.net_samples, a.fan_samples ++ b.fan_samples⟩

/-- The rows of every table that are tagged with timestamp `t`. -/
def DB.rowsAt (db : DB) (t : Int) : DB :=
  ⟨db.cpu_samples.filter (fun r => decide (r.ts = t)),
   db.mem_samples.filter (fun r => decide (r.ts = t)),
   db.gpu_samples.filter (fun r => decide (r.ts = t)),
   db.disk_samples.filter (fun r => decide (r.ts = t)),
   db.net_samples.filter (fun r => decide (r.ts = t)),
   db.fan_samples.filter (fun r => decide (r.ts = t))⟩

/-- The six series tables touched by `insert_snapshot` and `purge_before`. -/
inductive Table
  | cpu | mem | gpu | disk | net | fan
deriving DecidableEq, Repr

/-- A DML statement issued through `cursor.execute` on the data path:
an `INSERT` of one row, or `DELETE FROM tbl WHERE ts < cutoff`. -/
inductive Stmt
  | insCpu (r : CpuRow)
  | insMem (r : MemRow)
  | insGpu (r : GpuRow)
  | insDisk (r : DiskRow)
  | insNet (r : NetRow)
  | insFan (r : FanRow)
  | delBefore (tbl : Table) (cutoff : Int)
deriving DecidableEq, Repr

/-- Effect of one DML statement on a database state. -/
def applyStmt (db : DB) : Stmt → DB
  | .insCpu r => { db with cpu_samples := db.cpu_samples ++ [r] }
  | .insMem r => { db with mem_samples := db.mem_samples ++ [r] }
  | .insGpu r => { db with gpu_samples := db.gpu_samples ++ [r] }
  | .insDisk r => { db with disk_samples := db.disk_samples ++ [r] }
  | .insNet r => { db with net_samples := db.net_samples ++ [r] }
  | .insFan r => { db with fan_samples := db.fan_samples ++ [r] }
  | .delBefore .cpu c => { db with cpu_samples := db.cpu_samples.filter (fun r => decide (c ≤ r.ts)) }
  | .delBefore .mem c => { db with mem_samples := db.mem_samples.filter (fun r => decide (c ≤ r.ts)) }
  | .delBefore .gpu c => { db with gpu_samples := db.gpu_samples.filter (fun r => decide (c ≤ r.ts)) }
  | .delBefore .disk c => { db with disk_samples := db.disk_samples.filter (fun r => decide (c ≤ r.ts)) }
  | .delBefore .net c => { db with net_samples := db.net_samples.filter (fun r => decide (c ≤ r.ts)) }
  | .delBefore .fan c => { db with fan_samples := db.fan_samples.filter (fun r => decide (c ≤ r.ts)) }

/-- One operation on a connection whose `autocommit` is disabled
(`config.get_db_config` sets `autocommit = False`): a DML statement, which
only changes the connection's uncommitted working state, or `conn.commit()`,
which publishes the working state. -/
inductive Op
  | stmt (s : Stmt)
  | commit
deriving DecidableEq, Repr

/-- Run a list of connection operations.  `com` is the durably visible
(committed) state, `wrk` the connection's uncommitted working state.
Returns the final (committed, working) pair. -/
def txExec (com wrk : DB) : List Op → DB × DB
  | [] => (com, wrk)
  | .stmt s :: rest => txExec com (applyStmt wrk s) rest
  | .commit :: rest => txExec wrk wrk rest

/-- The durably visible database after the connection executed only the
first `k` of its operations and then crashed (the transaction's uncommitted
work is rolled back by the server when the connection dies). -/
def visibleAfter (db : DB) (ops : List Op) (k : Nat) : DB :=
  (txExec db db (ops.take k)).1

/-- The CPU block of a snapshot dict (`snapshot["cpu"]`): the keys
`insert_snapshot` reads from it.  `breakdown` is accessed with `.get`, so
its entries are optional. -/
structure CpuBlock where
  total_util : ℚ
  iowait : ℚ
  per_core : List ℚ
  temp : ℚ
  load1m : ℚ
  load5m : ℚ
  load15m : ℚ
  breakdown_user : Option ℚ
  breakdown_system : Option ℚ
deriving DecidableEq, Repr

/-- The memory block of a snapshot dict (`snapshot["mem"]`). -/
structure MemBlock where
  used_percent : ℚ
  used_bytes : Int
  total_bytes : Int
  swap_used_percent : ℚ
deriving DecidableEq, Repr

/-- Per-device disk throughput (`snapshot["disk"]["throughput"][dev]`). -/
structure DiskTp where
  read_bps : ℚ
  write_bps : ℚ
deriving DecidableEq, Repr

/-- Per-interface network throughput (`snapshot["net"]["throughput"][iface]`). -/
structure NetTp where
  rx_bps : ℚ
  tx_bps : ℚ
deriving DecidableEq, Repr

/-- A snapshot dict as consumed by `insert_snapshot`.  The Python dicts
`throughput` and `fans` are modelled as association lists in iteration
order.  `ts` is the raw value of `snapshot["ts"]` (a wall-clock float);
`insert_snapshot` truncates it with `int(...)`. -/
structure Snapshot where
  ts : ℚ
  cpu : CpuBlock
  mem : MemBlock
  uptime_sec : ℚ
  root_usage_percent : ℚ
  disk_throughput : List (String × DiskTp)
  net_throughput : List (String × NetTp)
  fans : List (String × ℚ)
deriving DecidableEq, Repr

/-- The data fields a valid GPU dict carries. -/
structure GpuData where
  index : Int
  temp : ℚ
  util : ℚ
  power_w : ℚ
  vram_used_mb : Int
  vram_total_mb : Int
  fan_percent : ℚ
deriving DecidableEq, Repr

/-- One entry of the `gpus` list: either a valid reading, or a dict carrying
the `"error"` key (`insert_snapshot` tests `"error" in g` before reading any
data field). -/
inductive GpuEntry
  | ok (d : GpuData)
  | err (msg : String)
deriving DecidableEq, Repr

/-- Whether a GPU entry carries the explicit error marker. -/
def GpuEntry.isErr : GpuEntry → Bool
  | .ok _ => false
  | .err _ => true

/-- The `cpu_samples` row `insert_snapshot` builds from a snapshot. -/
def cpuRowOf (snap : Snapshot) : CpuRow :=
  ⟨pyInt snap.ts, snap.cpu.total_util, snap.cpu.iowait, snap.cpu.per_core,
   snap.cpu.temp, snap.cpu.load1m, snap.cpu.load5m, snap.cpu.load15m,
   snap.uptime_sec, snap.cpu.breakdown_user, snap.cpu.breakdown_system⟩

/-- The `mem_samples` row `insert_snapshot` builds from a snapshot. -/
def memRowOf (snap : Snapshot) : MemRow :=
  ⟨pyInt snap.ts, snap.mem.used_percent, snap.mem.used_bytes,
   snap.mem.total_bytes, snap.mem.swap_used_percent⟩

/-- The `gpu_samples` rows built from the `gpus` list: entries with the
error marker are skipped by the `continue`, every other entry yields one
row. -/
def gpuRowsOf (ts : Int) (gpus : List GpuEntry) : List GpuRow :=
  gpus.filterMap fun g =>
    match g with
    | .err _ => none
    | .ok d => some ⟨ts, d.index, d.temp, d.util, d.power_w,
                     d.vram_used_mb, d.vram_total_mb, d.fan_percent⟩

/-- The `disk_samples` rows: one per device of `disk["throughput"]`, all
sharing `disk["root_usage_percent"]`. -/
def diskRowsOf (ts : Int) (usage : ℚ) (tp : List (String × DiskTp)) : List DiskRow :=
  tp.map fun p => ⟨ts, p.1, p.2.read_bps, p.2.write_bps, usage⟩

/-- The `net_samples` rows: one per interface of `net["throughput"]`. -/
def netRowsOf (ts : Int) (tp : List (String × NetTp)) : List NetRow :=
  tp.map fun p => ⟨ts, p.1, p.2.rx_bps, p.2.tx_bps⟩

/-- The `fan_samples` rows: one per label of `snapshot["fans"]`. -/
def fanRowsOf (ts : Int) (fans : List (String × ℚ)) : List FanRow :=
  fans.map fun p => ⟨ts, p.1, p.2⟩

/-- The sequence of `INSERT` statements `insert_snapshot` issues, in source
order: cpu, mem, gpus, disks, nets, fans. -/
def insertStmts (snap : Snapshot) (gpus : List GpuEntry) : List Stmt :=
  .insCpu (cpuRowOf snap) :: .insMem (memRowOf snap) ::
    ((gpuRowsOf (pyInt snap.ts) gpus).map .insGpu
     ++ (diskRowsOf (pyInt snap.ts) snap.root_usage_percent snap.disk_throughput).map .insDisk
     ++ (netRowsOf (pyInt snap.ts) snap.net_throughput).map .insNet
     ++ (fanRowsOf (pyInt snap.ts) snap.fans).map .insFan)

/-- The full operation sequence of `insert_snapshot` on its connection: all
inserts, then the single `conn.commit()`. -/
def insertOps (snap : Snapshot) (gpus : List GpuEntry) : List Op :=
  (insertStmts snap gpus).map .stmt ++ [.commit]

/-- `insert_snapshot(snapshot, gpus)`: the committed database after the
whole statement sequence and the final commit ran. -/
def insert_snapshot (db : DB) (snap : Snapshot) (gpus : List GpuEntry) : DB :=
  (txExec db db (insertOps snap gpus)).1

/-- The database holding exactly the rows derived from one snapshot. -/
def snapshotDB (snap : Snapshot) (gpus : List GpuEntry) : DB :=
  ⟨[cpuRowOf snap], [memRowOf snap], gpuRowsOf (pyInt snap.ts) gpus,
   diskRowsOf (pyInt snap.ts) snap.root_usage_percent snap.disk_throughput,
   netRowsOf (pyInt snap.ts) snap.net_throughput,
   fanRowsOf (pyInt snap.ts) snap.fans⟩

/-- The `DELETE FROM tbl WHERE ts < cutoff` statements `purge_before`
issues, in source order. -/
def purgeStmts (cutoff : Int) : List Stmt :=
  [.delBefore .cpu cutoff, .delBefore .mem cutoff, .delBefore .gpu cutoff,
   .delBefore .disk cutoff, .delBefore .net cutoff, .delBefore .fan cutoff]

/-- The full operation sequence of `purge_before` on its connection: six
deletes with `cutoff = int(cutoff_ts)`, then the single `conn.commit()`. -/
def purgeOps (cutoff_ts : ℚ) : List Op :=
  (purgeStmts (pyInt cutoff_ts)).map .stmt ++ [.commit]

/-- `purge_before(cutoff_ts)`: the committed database after the six deletes
and the final commit ran. -/
def purge_before (db : DB) (cutoff_ts : ℚ) : DB :=
  (txExec db db (purgeOps cutoff_ts)).1

/-- Insert an element into a list sorted ascending by the integer key. -/
def insertByKey {α : Type} (key : α → Int) (a : α) : List α → List α
  | [] => [a]
  | b :: bs => if key a ≤ key b then a :: b :: bs else b :: insertByKey key a bs

/-- Sort a list ascending by an integer key (models `ORDER BY ts ASC` and
`DataFrame.sort_values("ts")`; only the ordering by key is specified). -/
def sortByKey {α : Type} (key : α → Int) : List α → List α
  | [] => []
  | a :: as => insertByKey key a (sortByKey key as)

/-- Result of the CPU `SELECT ts, total_util, cpu_temp ... WHERE ts >= since
ORDER BY ts ASC` of `get_cpu_mem_history`. -/
def cpuQuery (db : DB) (since : Int) : List (Int × ℚ × ℚ) :=
  sortByKey (fun p => p.1)
    ((db.cpu_samples.filter (fun r => decide (since ≤ r.ts))).map
      (fun r => (r.ts, r.total_util, r.cpu_temp)))

/-- Result of the memory `SELECT ts, used_percent, swap_used_percent ...
WHERE ts >= since ORDER BY ts ASC` of `get_cpu_mem_history`. -/
def memQuery (db : DB) (since : Int) : List (Int × ℚ × ℚ) :=
  sortByKey (fun p => p.1)
    ((db.mem_samples.filter (fun r => decide (since ≤ r.ts))).map
      (fun r => (r.ts, r.used_percent, r.swap_used_percent)))

/-- The value `pd.to_datetime(ts, unit="s")` derives from an epoch-seconds
timestamp: its calendar decomposition into days since the epoch and the
time of day. -/
structure Datetime where
  epoch_day : Int
  hour : Int
  minute : Int
  second : Int
deriving DecidableEq, Repr

/-- Decompose epoch seconds into the `Datetime` carried by the `timestamp`
column. -/
def toDatetime (ts : Int) : Datetime :=
  ⟨ts.ediv 86400, (ts.emod 86400).ediv 3600, ((ts.emod 86400).emod 3600).ediv 60,
   ts.emod 60⟩

/-- One row of the DataFrame `get_cpu_mem_history` returns: the join key
`ts`, the CPU-side columns (`total_util`, `cpu_temp`) and memory-side
columns (`used_percent`, `swap_used_percent`) — `none` when the outer join
left them empty (NaN) — and the derived `timestamp`. -/
structure JoinedRow where
  ts : Int
  cpu : Option (ℚ × ℚ)
  mem : Option (ℚ × ℚ)
  timestamp : Datetime
deriving DecidableEq, Repr

/-- The outer merge on `ts` performed by
`pd.merge(df_cpu, df_mem, on="ts", how="outer")`: every CPU row paired with
each memory row of equal `ts` (or with empty memory columns when none
matches), followed by the memory rows whose `ts` matches no CPU row. -/
def outerMerge (cs ms : List (Int × ℚ × ℚ)) : List (Int × Option (ℚ × ℚ) × Option (ℚ × ℚ)) :=
  (cs.flatMap fun c =>
    match ms.filter (fun m => decide (m.1 = c.1)) with
    | [] => [(c.1, some c.2, none)]
    | hits => hits.map fun m => (c.1, some c.2, some m.2))
  ++ ((ms.filter (fun m => !cs.any (fun c => decide (c.1 = m.1)))).map
      (fun m => (m.1, none, some m.2)))

/-- `get_cpu_mem_history(minutes)` evaluated when the wall clock reads
`now`: window filter at `since = int(now - minutes*60)`, outer merge of the
two series on `ts`, sort ascending by `ts`, and the derived `timestamp`
column.  When both series are empty in the window the code returns an empty
DataFrame early; the merge of two empty frames is empty, so the result
coincides. -/
def get_cpu_mem_history (db : DB) (now : ℚ) (minutes : Int) : List JoinedRow :=
  let since := pyInt (now - (minutes : ℚ) * 60)
  (sortByKey (fun p => p.1) (outerMerge (cpuQuery db since) (memQuery db since))).map
    fun p => ⟨p.1, p.2.1, p.2.2, toDatetime p.1⟩

/-- A table of the schema: its name and its column list in order. -/
structure SchemaTable where
  name : String
  cols : List String
deriving DecidableEq, Repr

/-- The schema state of the database: the tables and the secondary index
names present. -/
structure Schema where
  tables : List SchemaTable
  indexes : List String
deriving DecidableEq, Repr

/-- The schema of a freshly created (empty) database. -/
def Schema.emptySchema : Schema := ⟨[], []⟩

/-- The MySQL errors relevant to `init_db_if_needed`: error 1061 (duplicate
key name), `ER_DUP_FIELDNAME` (duplicate column), `ER_NO_SUCH_TABLE`, and
losing the connection. -/
inductive DbErr
  | dupKeyName
  | dupFieldname
  | noSuchTable
  | connLost
deriving DecidableEq, Repr

/-- The DDL statements `init_db_if_needed` issues, plus the final
`conn.commit()`. -/
inductive InitOp
  | createTableIfNotExists (t : SchemaTable)
  | createIndex (idx : String)
  | addColumn (table : String) (col : String)
  | commit
deriving DecidableEq, Repr

/-- Whether a table of the given name exists in the schema. -/
def hasTable (s : Schema) (n : String) : Bool :=
  s.tables.any (fun p => p.name = n)

/-- Raw server behavior of `CREATE TABLE IF NOT EXISTS`: never an error,
no-op when the table exists. -/
def execCreateTable (s : Schema) (t : SchemaTable) : Except DbErr Schema :=
  if hasTable s t.name then .ok s
  else .ok { s with tables := s.tables ++ [t] }

/-- Raw server behavior of `CREATE INDEX`: error 1061 when the key name
already exists. -/
def execCreateIndex (s : Schema) (idx : String) : Except DbErr Schema :=
  if idx ∈ s.indexes then .error .dupKeyName
  else .ok { s with indexes := s.indexes ++ [idx] }

/-- Raw server behavior of `ALTER TABLE ... ADD COLUMN`:
`ER_DUP_FIELDNAME` when the column exists, `ER_NO_SUCH_TABLE` when the
table does not. -/
def execAddColumn (s : Schema) (table col : String) : Except DbErr Schema :=
  match s.tables.find? (fun p => p.name = table) with
  | none => .error .noSuchTable
  | some t =>
    if col ∈ t.cols then .error .dupFieldname
    else .ok { s with tables := s.tables.map fun p =>
        if p.name = table then { p with cols := p.cols ++ [col] } else p }

/-- One step of `init_db_if_needed` with its error handling: index errors
with errno 1061 are swallowed by the `continue`, duplicate-column errors by
`_ensure_column`'s `return`; every other error propagates. -/
def runInitOp (s : Schema) : InitOp → Except DbErr Schema
  | .createTableIfNotExists t => execCreateTable s t
  | .createIndex idx =>
    match execCreateIndex s idx with
    | .error .dupKeyName => .ok s
    | .error e => .error e
    | .ok s1 => .ok s1
  | .addColumn table col =>
    match execAddColumn s table col with
    | .error .dupFieldname => .ok s
    | .error e => .error e
    | .ok s1 => .ok s1
  | .commit => .ok s

/-- Column lists of the nine `CREATE TABLE IF NOT EXISTS` statements. -/
def cpuCols : List String :=
  ["ts", "total_util", "iowait", "per_core", "cpu_temp", "load1", "load5",
   "load15", "uptime_sec", "user_pct", "system_pct"]

/-- The nine tables `init_db_if_needed` creates, in source order. -/
def initTables : List SchemaTable :=
  [⟨"cpu_samples", cpuCols⟩,
   ⟨"mem_samples", ["ts", "used_percent", "used_bytes", "total_bytes", "swap_used_percent"]⟩,
   ⟨"gpu_samples", ["ts", "gpu_index", "temp", "util", "power_w", "vram_used_mb", "vram_total_mb", "fan_percent"]⟩,
   ⟨"disk_samples", ["ts", "device", "read_bps", "write_bps", "usage_percent"]⟩,
   ⟨"net_samples", ["ts", "iface", "rx_bps", "tx_bps"]⟩,
   ⟨"fan_samples", ["ts", "label", "rpm"]⟩,
   ⟨"dashboard_settings", ["key", "value"]⟩,
   ⟨"gpu_labels", ["gpu_index", "label"]⟩,
   ⟨"gpu_visibility", ["gpu_index", "hidden"]⟩]

/-- The six `CREATE INDEX` statements, in source order. -/
def initIndexes : List String :=
  ["idx_cpu_ts", "idx_mem_ts", "idx_gpu_ts", "idx_disk_ts", "idx_net_ts", "idx_fan_ts"]

/-- The full operation sequence of `init_db_if_needed`: nine creates, six
indexes, the two `_ensure_column` calls on `cpu_samples`, and the commit. -/
def initOps : List InitOp :=
  initTables.map .createTableIfNotExists ++ initIndexes.map .createIndex
    ++ [.addColumn "cpu_samples" "user_pct", .addColumn "cpu_samples" "system_pct",
        .commit]

/-- Run the statements of `init_db_if_needed` with a failure schedule:
`failAt = some j` makes the `j`-th call (counted from `idx`) raise a
connection error before taking effect.  DDL is auto-committed by MySQL, so
statements already run keep their effect when a later one fails.  Returns
the schema, whether the run completed, and how many calls completed. -/
def runInitOps (s : Schema) (ops : List InitOp) (failAt : Option Nat) (idx : Nat) :
    Schema × Bool × Nat :=
  match ops with
  | [] => (s, true, 0)
  | op :: rest =>
    if failAt = some idx then (s, false, 0)
    else
      match runInitOp s op with
      | .error _ => (s, false, 0)
      | .ok s1 =>
        let r := runInitOps s1 rest failAt (idx + 1)
        (r.1, r.2.1, r.2.2 + 1)

/-- The process state `init_db_if_needed` works on: the module-global
`_initialized` flag and the database schema. -/
structure ProcState where
  initialized : Bool
  schema : Schema
deriving DecidableEq, Repr

/-- `init_db_if_needed()`: returns immediately when the flag is set;
otherwise runs the DDL sequence, and sets `_initialized` only when every
statement and the commit succeeded.  Returns the new process state, whether
the call succeeded, and the number of database calls that completed. -/
def init_db_if_needed (st : ProcState) (failAt : Option Nat) : ProcState × Bool × Nat :=
  if st.initialized then (st, true, 0)
  else
    let r := runInitOps st.schema initOps failAt 0
    (⟨r.2.1, r.1⟩, r.2.1, r.2.2)

/-- Iterate `init_db_if_needed` (with no injected failures) `n` times in
sequence; returns the final state and whether every call succeeded. -/
def initIter : Nat → ProcState → ProcState × Bool
  | 0, st => (st, true)
  | n + 1, st =>
    let r := init_db_if_needed st none
    let r2 := initIter n r.1
    (r2.1, r.2.1 && r2.2)

/-- The nominal sampling interval (`config.SAMPLE_INTERVAL`, container
default 2 seconds). -/
def SAMPLE_INTERVAL : ℚ := 2

/-- State the sampler loop of `agent.main` carries between iterations:
`prev_disk`, `prev_net` (the previous cumulative counters handed back by
`collect_and_store`, `None` before the first success) and `last_tick`. -/
structure LoopState where
  prev_disk : Option (List (String × ℚ))
  prev_net : Option (List (String × ℚ))
  last_tick : ℚ
deriving DecidableEq, Repr

/-- What `logger.collect_and_store` did this tick: returned new previous
counters, or raised some exception (collection or persistence failure).
The callee is outside `src/`; the loop only sees this outcome. -/
inductive TickOutcome
  | ok (pd pn : List (String × ℚ))
  | raised (msg : String)
deriving DecidableEq, Repr

/-- The environment of one loop iteration: the wall clock at the top of the
loop (`start = time.time()`), the tick's outcome, and the processing time
(`elapsed = time.time() - start`). -/
structure TickInput where
  start : ℚ
  outcome : TickOutcome
  elapsed : ℚ
deriving DecidableEq, Repr

/-- Observable effect of one iteration: the `interval_s` passed to
collection, the traceback printed when the tick raised, and the duration
passed to `time.sleep`. -/
structure TickEffect where
  interval_s : ℚ
  reported : Option String
  sleep : ℚ
deriving DecidableEq, Repr

/-- One iteration of the `while True` body of `agent.main`:
`interval_s = max(start - last_tick, 0.001)`; the `try`/`except Exception`
catches any tick failure and prints the traceback instead of re-raising, so
`prev_disk`/`prev_net` keep their old values on failure; `last_tick = start`
either way; sleep `max(SAMPLE_INTERVAL - elapsed, 0.5)`. -/
def loopTick (st : LoopState) (inp : TickInput) : LoopState × TickEffect :=
  let interval_s := max (inp.start - st.last_tick) (1 / 1000)
  let sleep_for := max (SAMPLE_INTERVAL - inp.elapsed) (1 / 2)
  match inp.outcome with
  | .ok pd pn => (⟨some pd, some pn, inp.start⟩, ⟨interval_s, none, sleep_for⟩)
  | .raised m =>
    (⟨st.prev_disk, st.prev_net, inp.start⟩, ⟨interval_s, some m, sleep_for⟩)

/-- Run the loop over a list of tick environments; returns the final state
and the effect of every iteration, in order. -/
def loopRun (st : LoopState) : List TickInput → LoopState × List TickEffect
  | [] => (st, [])
  | inp :: rest =>
    let r := loopTick st inp
    let r2 := loopRun r.1 rest
    (r2.1, r.2 :: r2.2)

/-- Modelled from the spec: the Rate Calculator (the rate-derivation code
lives in `collector/logger.py` and the collectors, which are not under
`src/`).  Per the spec, for a key with no previous counter the observation
establishes a baseline and emits no rate; otherwise the rate is
`(current − previous) / elapsed_seconds`, and the baseline becomes the
current counter. -/
def rateStep (prev : Option ℚ) (current elapsed : ℚ) : Option ℚ × ℚ :=
  match prev with
  | none => (none, current)
  | some p => (some ((current - p) / elapsed), current)

/-- The per-key baseline map of PreviousSampleState (device/interface
identifier to last observed cumulative counter). -/
def RateMap : Type := List (String × ℚ)

/-- Look up the baseline recorded for a key. -/
def getKey (m : RateMap) (k : String) : Option ℚ :=
  (m.find? (fun p => decide (p.1 = k))).map (fun p => p.2)

/-- Record a key's baseline, overwriting any previous entry. -/
def setKey (m : RateMap) (k : String) (v : ℚ) : RateMap :=
  match m with
  | [] => [(k, v)]
  | p :: rest => if p.1 = k then (k, v) :: rest else p :: setKey rest k v

/-- Modelled from the spec: one keyed observation of the Rate Calculator —
emit the derived rate for `k` (if any) and update its baseline. -/
def observeKey (m : RateMap) (k : String) (current elapsed : ℚ) : Option ℚ × RateMap :=
  let r := rateStep (getKey m k) current elapsed
  (r.1, setKey m k r.2)

/-- Feed a sequence of `(counter, elapsed)` observations for the fixed key
`k` through the Rate Calculator, collecting the emitted rate (or absence)
of each step. -/
def observeSeq (m : RateMap) (k : String) : List (ℚ × ℚ) → List (Option ℚ)
  | [] => []
  | (c, dt) :: rest =>
    let r := observeKey m k c dt
    r.1 :: observeSeq r.2 k rest

/-- The single-key unfolding of `observeSeq`: the trace of emitted rates
when the running baseline is threaded directly. -/
def rateTraceAux (prev : Option ℚ) : List (ℚ × ℚ) → List (Option ℚ)
  | [] => []
  | (c, dt) :: rest => (rateStep prev c dt).1 :: rateTraceAux (some c) rest

/-- Concrete snapshot for the C1 witness: the spec's scenario values,
`ts = 1000` and disk device `"sda"` with `read_bps = 100`. -/
def c1Snap : Snapshot :=
  ⟨1000, ⟨50, 1, [10, 20], 40, 1, 2, 3, some 30, some 10⟩, ⟨60, 8, 16, 0⟩,
   3600, 70, [("sda", ⟨100, 5⟩)], [("eth0", ⟨7, 9⟩)], [("fan1", 1200)]⟩

/-- Concrete GPU list for the C1 witness. -/
def c1Gpus : List GpuEntry := [.ok ⟨0, 65, 90, 250, 8000, 24000, 55⟩]

/-- Concrete row kept by `purge_before` at a fractional cutoff. -/
def c3Row : CpuRow := ⟨5, 0, 0, [], 0, 0, 0, 0, 0, none, none⟩

/-- Concrete database for the C3 counterexample. -/
def c3Db : DB := ⟨[c3Row], [], [], [], [], []⟩

/-- Concrete row for the C3 witness: `ts = 7` survives a purge at cutoff 6. -/
def c3KeepRow : CpuRow := ⟨7, 0, 0, [], 0, 0, 0, 0, 0, none, none⟩

/-- Concrete database for the C3 witness. -/
def c3Db2 : DB := ⟨[c3KeepRow], [], [], [], [], []⟩

/-- Concrete database for the C4 witness: CPU-only data at `ts = 100`
(total_util 50, cpu_temp 40) and memory-only data at `ts = 105`
(used_percent 60, swap_used_percent 2). -/
def c4Db : DB :=
  ⟨[⟨100, 50, 1, [], 40, 1, 1, 1, 3600, none, none⟩], [⟨105, 60, 8, 16, 2⟩],
   [], [], [], []⟩

/-- Concrete database for the C8 counterexample: one row with `ts = 0` in
every one of the six tables. -/
def c8Db : DB :=
  ⟨[⟨0, 0, 0, [], 0, 0, 0, 0, 0, none, none⟩], [⟨0, 0, 0, 0, 0⟩],
   [⟨0, 0, 0, 0, 0, 0, 0, 0⟩], [⟨0, "sda", 0, 0, 0⟩], [⟨0, "eth0", 0, 0⟩],
   [⟨0, "fan1", 0⟩]⟩

theorem txExec_stmts (stmts : List Stmt) (com wrk : DB) :
    txExec com wrk (stmts.map .stmt) = (com, stmts.foldl applyStmt wrk) := by
  induction stmts generalizing wrk with
  | nil => rfl
  | cons s rest ih => simpa [txExec, List.foldl] using ih (applyStmt wrk s)

theorem txExec_append (l1 l2 : List Op) (com wrk : DB) :
    txExec com wrk (l1 ++ l2) =
      txExec (txExec com wrk l1).1 (txExec com wrk l1).2 l2 := by
  induction l1 generalizing com wrk with
  | nil => rfl
  | cons op rest ih =>
    cases op with
    | stmt s => simpa [txExec] using ih com (applyStmt wrk s)
    | commit => simpa [txExec] using ih wrk wrk

theorem visibleAfter_of_le_stmts (db : DB) (stmts : List Stmt) (k : Nat)
    (hk : k ≤ stmts.length) :
    visibleAfter db (stmts.map .stmt ++ [.commit]) k = db := by
  have hlen : k ≤ (stmts.map Op.stmt).length := by simpa using hk
  have htake : (stmts.map Op.stmt ++ [Op.commit]).take k = (stmts.take k).map Op.stmt := by
    rw [List.take_append_of_le_length hlen, (List.map_take _ _ _).symm]
  rw [visibleAfter, htake, txExec_stmts]

theorem visibleAfter_complete (db : DB) (stmts : List Stmt) (k : Nat)
    (hk : (stmts.map Op.stmt ++ [Op.commit]).length ≤ k) :
    visibleAfter db (stmts.map .stmt ++ [.commit]) k = stmts.foldl applyStmt db := by
  rw [visibleAfter, List.take_of_length_le hk, txExec_append, txExec_stmts]
  rfl

theorem foldl_insGpu (rows : List GpuRow) (db : DB) :
    (rows.map Stmt.insGpu).foldl applyStmt db =
      { db with gpu_samples := db.gpu_samples ++ rows } := by
  induction rows generalizing db with
  | nil => simp [List.foldl]
  | cons r rest ih => simp [List.foldl, applyStmt, ih, List.append_assoc]

theorem foldl_insDisk (rows : List DiskRow) (db : DB) :
    (rows.map Stmt.insDisk).foldl applyStmt db =
      { db with disk_samples := db.disk_samples ++ rows } := by
  induction rows generalizing db with
  | nil => simp [List.foldl]
  | cons r rest ih => simp [List.foldl, applyStmt, ih, List.append_assoc]

theorem foldl_insNet (rows : List NetRow) (db : DB) :
    (rows.map Stmt.insNet).foldl applyStmt db =
      { db with net_samples := db.net_samples ++ rows } := by
  induction rows generalizing db with
  | nil => simp [List.foldl]
  | cons r rest ih => simp [List.foldl, applyStmt, ih, List.append_assoc]

theorem foldl_insFan (rows : List FanRow) (db : DB) :
    (rows.map Stmt.insFan).foldl applyStmt db =
      { db with fan_samples := db.fan_samples ++ rows } := by
  induction rows generalizing db with
  | nil => simp [List.foldl]
  | cons r rest ih => simp [List.foldl, applyStmt, ih, List.append_assoc]

theorem insert_snapshot_eq_append (db : DB) (snap : Snapshot) (gpus : List GpuEntry) :
    insert_snapshot db snap gpus = db.append (snapshotDB snap gpus) := by
  rw [insert_snapshot, insertOps, txExec_append, txExec_stmts]
  show ((insertStmts snap gpus).foldl applyStmt db) = _
  rw [insertStmts]
  simp only [List.foldl_cons, List.foldl_append]
  rw [foldl_insGpu, foldl_insDisk, foldl_insNet, foldl_insFan]
  simp [applyStmt, DB.append, snapshotDB]

theorem rowsAt_append (a b : DB) (t : Int) :
    (a.append b).rowsAt t = (a.rowsAt t).append (b.rowsAt t) := by
  simp [DB.append, DB.rowsAt, List.filter_append]

theorem gpuRowsOf_ts (t : Int) (gpus : List GpuEntry) :
    ∀ r ∈ gpuRowsOf t gpus, r.ts = t := by
  intro r hr
  rw [gpuRowsOf, List.mem_filterMap] at hr
  obtain ⟨g, _, hg⟩ := hr
  cases g with
  | ok d => simp at hg; subst hg; rfl
  | err m => simp at hg

theorem snapshotDB_rowsAt (snap : Snapshot) (gpus : List GpuEntry) :
    (snapshotDB snap gpus).rowsAt (pyInt snap.ts) = snapshotDB snap gpus := by
  rw [snapshotDB, DB.rowsAt]
  congr 1
  · simp [cpuRowOf]
  · simp [memRowOf]
  · exact List.filter_eq_self.mpr fun r hr => by
      simpa using gpuRowsOf_ts (pyInt snap.ts) gpus r hr
  · exact List.filter_eq_self.mpr fun r hr => by
      rw [diskRowsOf] at hr; rw [List.mem_map] at hr
      obtain ⟨p, _, hp⟩ := hr; subst hp; simp
  · exact List.filter_eq_self.mpr fun r hr => by
      rw [netRowsOf] at hr; rw [List.mem_map] at hr
      obtain ⟨p, _, hp⟩ := hr; subst hp; simp
  · exact List.filter_eq_self.mpr fun r hr => by
      rw [fanRowsOf] at hr; rw [List.mem_map] at hr
      obtain ⟨p, _, hp⟩ := hr; subst hp; simp

theorem empty_append (b : DB) : DB.append DB.empty b = b := by
  simp [DB.append, DB.empty]

/-- C1.  `insert_snapshot` is all-or-nothing.  Provided no row of the prior
database carries the snapshot's (truncated) timestamp: after the completed
call, the rows tagged with that timestamp are exactly the rows derived from
the snapshot (one cpu, one mem, one per valid GPU entry, one per disk
device, one per network interface, one per fan label); a crash after any
proper prefix of the connection's operations — in particular partway
through the GPU inserts, which all precede the single commit — leaves the
database exactly as it was, so no row of the snapshot is visible; and at
every crash point a reader sees either none of the snapshot's rows or all
of them, never a proper non-empty subset. -/
theorem c1_insert_snapshot_atomic (db : DB) (snap : Snapshot) (gpus : List GpuEntry)
    (hfresh : db.rowsAt (pyInt snap.ts) = DB.empty) :
    (insert_snapshot db snap gpus).rowsAt (pyInt snap.ts) = snapshotDB snap gpus ∧
    (∀ k, k < (insertOps snap gpus).length →
      visibleAfter db (insertOps snap gpus) k = db) ∧
    (∀ k, k ≤ (insertOps snap gpus).length →
      (visibleAfter db (insertOps snap gpus) k).rowsAt (pyInt snap.ts) = DB.empty ∨
      (visibleAfter db (insertOps snap gpus) k).rowsAt (pyInt snap.ts) =
        snapshotDB snap gpus) := by
  have hfull : (insert_snapshot db snap gpus).rowsAt (pyInt snap.ts) = snapshotDB snap gpus := by
    rw [insert_snapshot_eq_append, rowsAt_append, hfresh, snapshotDB_rowsAt, empty_append]
  have hlen : (insertOps snap gpus).length = (insertStmts snap gpus).length + 1 := by
    simp [insertOps]
  have hlt : ∀ k, k < (insertOps snap gpus).length →
      visibleAfter db (insertOps snap gpus) k = db := by
    intro k hk
    exact visibleAfter_of_le_stmts db (insertStmts snap gpus) k
      (by rw [hlen] at hk; omega)
  refine ⟨hfull, hlt, ?_⟩
  intro k hk
  rcases Nat.lt_or_ge k (insertOps snap gpus).length with h | h
  · left
    rw [hlt k h, hfresh]
  · right
    have heq : visibleAfter db (insertOps snap gpus) k = insert_snapshot db snap gpus := by
      have h2 : (List.map Op.stmt (insertStmts snap gpus) ++ [Op.commit]).length ≤ k := h
      rw [show insertOps snap gpus = (insertStmts snap gpus).map .stmt ++ [.commit] from rfl,
        visibleAfter_complete db _ k h2, insert_snapshot, insertOps, txExec_append,
        txExec_stmts]
      rfl
    rw [heq, hfull]

/-- Witness for C1: on an empty database, a crash after three operations
(partway through the row inserts, before the commit) leaves the database
empty, and the completed insert makes exactly the snapshot's rows visible
at its timestamp. -/
theorem c1_insert_snapshot_atomic_witness :
    DB.rowsAt DB.empty (pyInt c1Snap.ts) = DB.empty ∧
    3 < (insertOps c1Snap c1Gpus).length ∧
    visibleAfter DB.empty (insertOps c1Snap c1Gpus) 3 = DB.empty ∧
    (insert_snapshot DB.empty c1Snap c1Gpus).rowsAt (pyInt c1Snap.ts) =
      snapshotDB c1Snap c1Gpus :=
  ⟨by with_unfolding_all decide, by with_unfolding_all decide,
   (c1_insert_snapshot_atomic DB.empty c1Snap c1Gpus
     (by with_unfolding_all decide)).2.1 3 (by with_unfolding_all decide),
   (c1_insert_snapshot_atomic DB.empty c1Snap c1Gpus
     (by with_unfolding_all decide)).1⟩

theorem gpuRowsOf_skip_err (t : Int) (pre post : List GpuEntry) (msg : String) :
    gpuRowsOf t (pre ++ .err msg :: post) = gpuRowsOf t (pre ++ post) := by
  simp [gpuRowsOf, List.filterMap_append, List.filterMap_cons]

/-- C6.  A GPU entry carrying the explicit error marker is skipped
individually: it contributes no row to the GPU series, the write of every
other row of the snapshot (including the remaining GPU entries) is exactly
the write that would have happened without it, and the GPU series receives
one row per valid entry. -/
theorem c6_gpu_error_entry_skipped (db : DB) (snap : Snapshot)
    (pre post : List GpuEntry) (msg : String) :
    insert_snapshot db snap (pre ++ .err msg :: post) =
      insert_snapshot db snap (pre ++ post) ∧
    gpuRowsOf (pyInt snap.ts) (pre ++ .err msg :: post) =
      gpuRowsOf (pyInt snap.ts) (pre ++ post) ∧
    (∀ gpus : List GpuEntry,
      (gpuRowsOf (pyInt snap.ts) gpus).length =
        (gpus.filter (fun g => !g.isErr)).length) := by
  have hlen : ∀ gpus : List GpuEntry,
      (gpuRowsOf (pyInt snap.ts) gpus).length =
        (gpus.filter (fun g => !g.isErr)).length := by
    intro gpus
    induction gpus with
    | nil => rfl
    | cons g rest ih =>
      cases g with
      | ok d => simpa [gpuRowsOf, List.filterMap_cons, GpuEntry.isErr] using ih
      | err m => simpa [gpuRowsOf, List.filterMap_cons, GpuEntry.isErr] using ih
  refine ⟨?_, gpuRowsOf_skip_err _ pre post msg, hlen⟩
  rw [insert_snapshot_eq_append, insert_snapshot_eq_append]
  unfold snapshotDB
  rw [gpuRowsOf_skip_err]

/-- `purge_before` equals the per-table filter keeping exactly the rows
with `ts ≥ int(cutoff_ts)`. -/
theorem purge_before_eq (db : DB) (c : ℚ) :
    purge_before db c =
      ⟨db.cpu_samples.filter (fun r => decide (pyInt c ≤ r.ts)),
       db.mem_samples.filter (fun r => decide (pyInt c ≤ r.ts)),
       db.gpu_samples.filter (fun r => decide (pyInt c ≤ r.ts)),
       db.disk_samples.filter (fun r => decide (pyInt c ≤ r.ts)),
       db.net_samples.filter (fun r => decide (pyInt c ≤ r.ts)),
       db.fan_samples.filter (fun r => decide (pyInt c ≤ r.ts))⟩ := rfl

theorem filter_self_idem {α : Type} {p : α → Bool} {l : List α} :
    (l.filter p).filter p = l.filter p :=
  List.filter_eq_self.mpr fun _ ha => (List.mem_filter.mp ha).2

/-- Counterexample to C3 as stated: with the fractional cutoff
`C = 11/2`, after `purge_before(C)` the cpu table still contains the row
with `ts = 5`, and `5 < 11/2` — so a table does contain a row with
`ts < C`.  (`purge_before` compares against `int(C) = 5`, not `C`.) -/
theorem c3_counterexample :
    c3Row ∈ (purge_before c3Db (11 / 2)).cpu_samples ∧
    ((c3Row.ts : ℚ) < 11 / 2) := by
  with_unfolding_all decide

/-- C3 (amended).  For every cutoff `C`, after `purge_before(C)` no table
contains a row with `ts < int(C)` (for an integer cutoff this is `ts < C`),
every row with `ts ≥ int(C)` that existed before the purge still exists
unchanged, and running `purge_before(C)` again leaves the state
unchanged. -/
theorem c3_purge_window_idempotent (db : DB) (c : ℚ) :
    (∀ r ∈ (purge_before db c).cpu_samples, ¬ r.ts < pyInt c) ∧
    (∀ r ∈ (purge_before db c).mem_samples, ¬ r.ts < pyInt c) ∧
    (∀ r ∈ (purge_before db c).gpu_samples, ¬ r.ts < pyInt c) ∧
    (∀ r ∈ (purge_before db c).disk_samples, ¬ r.ts < pyInt c) ∧
    (∀ r ∈ (purge_before db c).net_samples, ¬ r.ts < pyInt c) ∧
    (∀ r ∈ (purge_before db c).fan_samples, ¬ r.ts < pyInt c) ∧
    (∀ r ∈ db.cpu_samples, pyInt c ≤ r.ts → r ∈ (purge_before db c).cpu_samples) ∧
    (∀ r ∈ db.mem_samples, pyInt c ≤ r.ts → r ∈ (purge_before db c).mem_samples) ∧
    (∀ r ∈ db.gpu_samples, pyInt c ≤ r.ts → r ∈ (purge_before db c).gpu_samples) ∧
    (∀ r ∈ db.disk_samples, pyInt c ≤ r.ts → r ∈ (purge_before db c).disk_samples) ∧
    (∀ r ∈ db.net_samples, pyInt c ≤ r.ts → r ∈ (purge_before db c).net_samples) ∧
    (∀ r ∈ db.fan_samples, pyInt c ≤ r.ts → r ∈ (purge_before db c).fan_samples) ∧
    purge_before (purge_before db c) c = purge_before db c := by
  rw [purge_before_eq db c, purge_before_eq]
  refine ⟨?_, ?_, ?_, ?_, ?_, ?_, ?_, ?_, ?_, ?_, ?_, ?_, ?_⟩
  all_goals first
  | (intro r hr
     first
     | (rw [List.mem_filter] at hr
        simpa using hr.2)
     | (intro hts
        exact List.mem_filter.mpr ⟨hr, by simpa using hts⟩))
  | (congr 1 <;> exact filter_self_idem)

/-- Witness for the amended C3: in a concrete database, the row with
`ts = 7` is still present after `purge_before(6)`. -/
theorem c3_purge_window_idempotent_witness :
    c3KeepRow ∈ (purge_before c3Db2 6).cpu_samples :=
  (c3_purge_window_idempotent c3Db2 6).2.2.2.2.2.2.1 c3KeepRow
    (by with_unfolding_all decide) (by with_unfolding_all decide)

/-- C9.  `purge_before` truncates its (possibly fractional) cutoff with
`int(...)` — truncation toward zero, `pyInt` — before comparing: a row is
in a table after the purge exactly when it was there before and its `ts` is
not below `int(c)`; in particular a row with `ts` equal to the integer part
of the cutoff is retained. -/
theorem c9_purge_truncates_cutoff (db : DB) (c : ℚ) :
    (∀ r : CpuRow, r ∈ (purge_before db c).cpu_samples ↔
      r ∈ db.cpu_samples ∧ ¬ r.ts < pyInt c) ∧
    (∀ r : MemRow, r ∈ (purge_before db c).mem_samples ↔
      r ∈ db.mem_samples ∧ ¬ r.ts < pyInt c) ∧
    (∀ r : GpuRow, r ∈ (purge_before db c).gpu_samples ↔
      r ∈ db.gpu_samples ∧ ¬ r.ts < pyInt c) ∧
    (∀ r : DiskRow, r ∈ (purge_before db c).disk_samples ↔
      r ∈ db.disk_samples ∧ ¬ r.ts < pyInt c) ∧
    (∀ r : NetRow, r ∈ (purge_before db c).net_samples ↔
      r ∈ db.net_samples ∧ ¬ r.ts < pyInt c) ∧
    (∀ r : FanRow, r ∈ (purge_before db c).fan_samples ↔
      r ∈ db.fan_samples ∧ ¬ r.ts < pyInt c) ∧
    (∀ r ∈ db.cpu_samples, r.ts = pyInt c →
      r ∈ (purge_before db c).cpu_samples) := by
  rw [purge_before_eq db c]
  refine ⟨?_, ?_, ?_, ?_, ?_, ?_,
    fun r hr hts => List.mem_filter.mpr ⟨hr, by simp [hts]⟩⟩
  all_goals
    intro r
    rw [List.mem_filter]
    simp

/-- Witness for C9: with the fractional cutoff `11/2`, the row with
`ts = 5 = int(11/2)` is retained by `purge_before`. -/
theorem c9_purge_truncates_cutoff_witness :
    c3Row ∈ (purge_before c3Db (11 / 2)).cpu_samples :=
  (c9_purge_truncates_cutoff c3Db (11 / 2)).2.2.2.2.2.2 c3Row
    (by with_unfolding_all decide) (by with_unfolding_all decide)

/-- Counterexample to C8 as stated: the six deletes of `purge_before` run
on one connection with `autocommit` disabled and a single `conn.commit()`
after the loop, so the purge is one atomic transaction.  At a concrete
state with a purgeable row in every table and cutoff 10, every one of the
eight possible crash points leaves either no table purged or all six
purged — a state with some tables purged and others not is impossible,
although the purge does delete something (the purged and unpurged states
differ). -/
theorem c8_counterexample :
    ((List.range ((purgeOps (10 : ℚ)).length + 1)).all fun k =>
      decide (visibleAfter c8Db (purgeOps 10) k = c8Db ∨
        visibleAfter c8Db (purgeOps 10) k = purge_before c8Db 10)) = true ∧
    purge_before c8Db 10 ≠ c8Db := by
  with_unfolding_all decide

/-- C8 (amended).  `purge_before` is one atomic transaction spanning all
six tables: its six deletes are followed by a single commit, so a crash
after any prefix of its operations leaves either the original state (no
table purged) or the fully purged state — never some tables purged and
others not. -/
theorem c8_purge_one_transaction (db : DB) (c : ℚ) (k : Nat)
    (_hk : k ≤ (purgeOps c).length) :
    visibleAfter db (purgeOps c) k = db ∨
    visibleAfter db (purgeOps c) k = purge_before db c := by
  have hlen : (purgeOps c).length = (purgeStmts (pyInt c)).length + 1 := by
    simp [purgeOps]
  rcases Nat.lt_or_ge k (purgeOps c).length with h | h
  · left
    exact visibleAfter_of_le_stmts db (purgeStmts (pyInt c)) k (by omega)
  · right
    have h2 : (List.map Op.stmt (purgeStmts (pyInt c)) ++ [Op.commit]).length ≤ k := h
    rw [show purgeOps c = (purgeStmts (pyInt c)).map .stmt ++ [.commit] from rfl,
      visibleAfter_complete db _ k h2, purge_before, purgeOps, txExec_append, txExec_stmts]
    rfl

/-- Witness for the amended C8: a crash after three of the six deletes at
cutoff 10 on the concrete database leaves all-or-nothing visible. -/
theorem c8_purge_one_transaction_witness :
    visibleAfter c8Db (purgeOps 10) 3 = c8Db ∨
    visibleAfter c8Db (purgeOps 10) 3 = purge_before c8Db 10 :=
  c8_purge_one_transaction c8Db 10 3 (by with_unfolding_all decide)

theorem loopRun_length (st : LoopState) (inputs : List TickInput) :
    (loopRun st inputs).2.length = inputs.length := by
  induction inputs generalizing st with
  | nil => rfl
  | cons i rest ih => simp [loopRun, ih]

theorem loopTick_sleep_floor (st : LoopState) (inp : TickInput) :
    1 / 2 ≤ (loopTick st inp).2.sleep := by
  cases h : inp.outcome <;> simp [loopTick, h]

/-- C7.  The loop body of `agent.main` wraps the whole tick in
`try`/`except Exception`: a raised collection/persistence failure is
reported (its traceback printed) instead of propagating, the loop state
other than `last_tick` is untouched by a failed tick, and the loop
schedules the next tick after every input — a run over any input sequence
produces one iteration per input and always sleeps at least the 0.5-second
floor, so no single failing sample terminates the sampling process. -/
theorem c7_loop_survives_failures (st : LoopState) (inputs : List TickInput)
    (inp : TickInput) (m : String) :
    (loopRun st inputs).2.length = inputs.length ∧
    (∀ e ∈ (loopRun st inputs).2, 1 / 2 ≤ e.sleep) ∧
    (inp.outcome = .raised m →
      (loopTick st inp).2.reported = some m ∧
      (loopTick st inp).1.prev_disk = st.prev_disk ∧
      (loopTick st inp).1.prev_net = st.prev_net ∧
      (loopTick st inp).1.last_tick = inp.start) := by
  refine ⟨loopRun_length st inputs, ?_, ?_⟩
  · induction inputs generalizing st with
    | nil => intro e he; simp [loopRun] at he
    | cons i rest ih =>
      intro e he
      rw [loopRun] at he
      rcases List.mem_cons.mp he with h | h
      · rw [h]; exact loopTick_sleep_floor st i
      · exact ih _ e h
  · intro hr
    simp [loopTick, hr]

/-- Witness for C7: a concrete failing tick is reported, keeps the
previous counters, and advances `last_tick`. -/
theorem c7_loop_survives_failures_witness :
    (loopTick ⟨some [("sda", 5)], none, 0⟩ ⟨5, .raised "boom", 1⟩).2.reported =
      some "boom" ∧
    (loopTick ⟨some [("sda", 5)], none, 0⟩ ⟨5, .raised "boom", 1⟩).1.prev_disk =
      some [("sda", 5)] ∧
    (loopTick ⟨some [("sda", 5)], none, 0⟩ ⟨5, .raised "boom", 1⟩).1.prev_net = none ∧
    (loopTick ⟨some [("sda", 5)], none, 0⟩ ⟨5, .raised "boom", 1⟩).1.last_tick = 5 :=
  (c7_loop_survives_failures ⟨some [("sda", 5)], none, 0⟩ []
    ⟨5, .raised "boom", 1⟩ "boom").2.2 rfl

theorem getKey_setKey_self (m : RateMap) (k : String) (v : ℚ) :
    getKey (setKey m k v) k = some v := by
  induction m with
  | nil => simp [setKey, getKey, List.find?]
  | cons p rest ih =>
    by_cases h : p.1 = k
    · simp [setKey, h, getKey, List.find?]
    · simp only [setKey, if_neg h]
      rw [getKey, List.find?]
      have : (decide (p.1 = k)) = false := by simpa using h
      rw [this]
      exact ih

theorem observeSeq_eq_trace (m : RateMap) (k : String) (obs : List (ℚ × ℚ)) :
    observeSeq m k obs = rateTraceAux (getKey m k) obs := by
  induction obs generalizing m with
  | nil => rfl
  | cons o rest ih =>
    obtain ⟨c, dt⟩ := o
    rw [observeSeq, rateTraceAux]
    cases hp : getKey m k with
    | none =>
      rw [observeKey, hp]
      simp only [rateStep]
      rw [ih (setKey m k c), getKey_setKey_self]
    | some p =>
      rw [observeKey, hp]
      simp only [rateStep]
      rw [ih (setKey m k c), getKey_setKey_self]

theorem rateTraceAux_length (prev : Option ℚ) (obs : List (ℚ × ℚ)) :
    (rateTraceAux prev obs).length = obs.length := by
  induction obs generalizing prev with
  | nil => rfl
  | cons o rest ih => obtain ⟨c, dt⟩ := o; simp [rateTraceAux, ih]

theorem rateTraceAux_zero (p : ℚ) (obs : List (ℚ × ℚ)) (c1 dt1 : ℚ)
    (h : obs[0]? = some (c1, dt1)) :
    (rateTraceAux (some p) obs)[0]? = some (some ((c1 - p) / dt1)) := by
  cases obs with
  | nil => simp at h
  | cons o rest =>
    obtain ⟨c, dt⟩ := o
    simp at h
    rw [rateTraceAux]
    simp [rateStep, h.1, h.2]

theorem rateTraceAux_succ (prev : Option ℚ) (obs : List (ℚ × ℚ))
    (i : Nat) (ci dti ci1 dti1 : ℚ)
    (hi : obs[i]? = some (ci, dti)) (hi1 : obs[i + 1]? = some (ci1, dti1)) :
    (rateTraceAux prev obs)[i + 1]? = some (some ((ci1 - ci) / dti1)) := by
  induction obs generalizing prev i with
  | nil => simp at hi
  | cons o rest ih =>
    obtain ⟨c, dt⟩ := o
    rw [rateTraceAux]
    cases i with
    | zero =>
      simp at hi
      rw [List.getElem?_cons_succ] at hi1 ⊢
      rw [hi.1]
      exact rateTraceAux_zero ci rest ci1 dti1 hi1
    | succ j =>
      rw [List.getElem?_cons_succ] at hi hi1
      rw [List.getElem?_cons_succ]
      exact ih _ j hi hi1

/-- C2 (spec-modelled; the Rate Calculator's code is in collector modules
outside `src/`).  For a fixed key with no recorded baseline, feeding the
counter sequence `(c0, dt0), (c1, dt1), ...` through the keyed Rate
Calculator yields one output per observation, no rate at step 0 (the first
observation only establishes the baseline), and at every step `i ≥ 1` the
rate `(c_i − c_{i−1}) / dt_i`. -/
theorem c2_rate_derivation (m : RateMap) (k : String) (obs : List (ℚ × ℚ))
    (hm : getKey m k = none) :
    (observeSeq m k obs).length = obs.length ∧
    (∀ c0 dt0, obs[0]? = some (c0, dt0) → (observeSeq m k obs)[0]? = some none) ∧
    (∀ i ci dti ci1 dti1, obs[i]? = some (ci, dti) → obs[i + 1]? = some (ci1, dti1) →
      (observeSeq m k obs)[i + 1]? = some (some ((ci1 - ci) / dti1))) := by
  rw [observeSeq_eq_trace m k obs, hm]
  refine ⟨rateTraceAux_length none obs, ?_, ?_⟩
  · intro c0 dt0 h0
    cases obs with
    | nil => simp at h0
    | cons o rest => obtain ⟨c, dt⟩ := o; simp [rateTraceAux, rateStep]
  · intro i ci dti ci1 dti1 hi hi1
    exact rateTraceAux_succ none obs i ci dti ci1 dti1 hi hi1

/-- Witness for C2: for the fresh key `"eth0"` and observations
`(10, 2), (16, 3)`, step 0 emits no rate and step 1 emits
`(16 − 10) / 3 = 2`. -/
theorem c2_rate_derivation_witness :
    getKey [] "eth0" = none ∧
    (observeSeq [] "eth0" [(10, 2), (16, 3)])[0]? = some none ∧
    (observeSeq [] "eth0" [(10, 2), (16, 3)])[1]? = some (some 2) := by
  refine ⟨rfl, ?_, ?_⟩
  · exact (c2_rate_derivation [] "eth0" [(10, 2), (16, 3)] rfl).2.1 10 2 rfl
  · have h := (c2_rate_derivation [] "eth0" [(10, 2), (16, 3)] rfl).2.2 0
      10 2 16 3 rfl rfl
    rw [h]
    with_unfolding_all decide

theorem runInitOp_progress (s : Schema) (op : InitOp)
    (h : ∀ t c, op = .addColumn t c → hasTable s t = true) :
    ∃ s1, runInitOp s op = .ok s1 ∧
      ∀ n, hasTable s n = true → hasTable s1 n = true := by
  cases op with
  | createTableIfNotExists t =>
    rw [runInitOp, execCreateTable]
    by_cases hp : hasTable s t.name
    · exact ⟨s, by rw [if_pos hp], fun n hn => hn⟩
    · refine ⟨_, by rw [if_neg hp], fun n hn => ?_⟩
      simp only [hasTable, List.any_append] at hn ⊢
      rw [hn, Bool.true_or]
  | createIndex idx =>
    by_cases hp : idx ∈ s.indexes
    · exact ⟨s, by simp [runInitOp, execCreateIndex, hp], fun n hn => hn⟩
    · exact ⟨{ s with indexes := s.indexes ++ [idx] },
        by simp [runInitOp, execCreateIndex, hp], fun n hn => hn⟩
  | addColumn t c =>
    have ht : hasTable s t = true := h t c rfl
    rw [runInitOp, execAddColumn]
    cases hf : s.tables.find? (fun p => decide (p.name = t)) with
    | none =>
      exfalso
      rw [List.find?_eq_none] at hf
      rw [hasTable, List.any_eq_true] at ht
      obtain ⟨p, hp, hpt⟩ := ht
      exact hf p hp (by simpa using hpt)
    | some t0 =>
      by_cases hc : c ∈ t0.cols
      · exact ⟨s, by simp [hc], fun n hn => hn⟩
      · refine ⟨{ s with tables := s.tables.map fun p =>
            if p.name = t then { p with cols := p.cols ++ [c] } else p },
          by simp [hc], fun n hn => ?_⟩
        simp only [hasTable, List.any_eq_true] at hn ⊢
        obtain ⟨p, hp, hpn⟩ := hn
        refine ⟨if p.name = t then { p with cols := p.cols ++ [c] } else p,
          List.mem_map.mpr ⟨p, hp, rfl⟩, ?_⟩
        by_cases h2 : p.name = t <;> simpa [h2] using hpn
  | commit => exact ⟨s, rfl, fun n hn => hn⟩

theorem runInitOps_none_ok (ops : List InitOp) :
    ∀ (s : Schema) (idx : Nat),
      (∀ t c, InitOp.addColumn t c ∈ ops → hasTable s t = true) →
      (runInitOps s ops none idx).2.1 = true ∧
      (runInitOps s ops none idx).2.2 = ops.length := by
  induction ops with
  | nil => intro s idx _; simp [runInitOps]
  | cons op rest ih =>
    intro s idx h
    obtain ⟨s1, hop, hpres⟩ := runInitOp_progress s op
      (fun t c he => h t c (by rw [he]; exact List.mem_cons_self _ _))
    have hrest := ih s1 (idx + 1)
      (fun t c hm => hpres t (h t c (List.mem_cons_of_mem _ hm)))
    rw [runInitOps]
    simp only [show ((none : Option Nat) = some idx) = False by simp, if_false, hop]
    exact ⟨hrest.1, by simp [hrest.2]⟩

theorem init_from_any_schema (s : Schema) :
    (runInitOps s initOps none 0).2.1 = true ∧
    (runInitOps s initOps none 0).2.2 = initOps.length := by
  have hdecomp : initOps =
      InitOp.createTableIfNotExists ⟨"cpu_samples", cpuCols⟩ :: initOps.tail := rfl
  rw [hdecomp, runInitOps]
  simp only [show ((none : Option Nat) = some 0) = False by simp, if_false]
  have hstep : ∃ s1, runInitOp s (.createTableIfNotExists ⟨"cpu_samples", cpuCols⟩) =
      .ok s1 ∧ hasTable s1 "cpu_samples" = true := by
    rw [runInitOp, execCreateTable]
    by_cases hp : hasTable s (SchemaTable.mk "cpu_samples" cpuCols).name
    · exact ⟨s, by rw [if_pos hp], hp⟩
    · refine ⟨_, by rw [if_neg hp], ?_⟩
      simp [hasTable, List.any_append]
  obtain ⟨s1, hop, hcpu⟩ := hstep
  rw [hop]
  have htail : ∀ t c, InitOp.addColumn t c ∈ initOps.tail → hasTable s1 t = true := by
    intro t c hm
    simp [initOps, initTables, initIndexes] at hm
    rcases hm with ⟨ht, _⟩ | ⟨ht, _⟩ <;> (subst ht; exact hcpu)
  have hrest := runInitOps_none_ok initOps.tail s1 1 htail
  refine ⟨hrest.1, ?_⟩
  simp only [hrest.2]
  rw [hdecomp]
  simp

theorem runInitOps_fail (ops : List InitOp) :
    ∀ (s : Schema) (idx j : Nat), idx ≤ j → j < idx + ops.length →
      (runInitOps s ops (some j) idx).2.1 = false := by
  induction ops with
  | nil => intro s idx j h1 h2; simp at h2; omega
  | cons op rest ih =>
    intro s idx j h1 h2
    rw [runInitOps]
    by_cases hj : j = idx
    · simp [hj]
    · have hne : (some j = some idx) = False := by simp [hj]
      simp only [hne, if_false]
      cases hop : runInitOp s op with
      | error e => rfl
      | ok s1 =>
        have := ih s1 (idx + 1) j (by omega) (by simp at h2; omega)
        simpa using this

theorem init_of_initialized (st : ProcState) (h : st.initialized = true)
    (f : Option Nat) : init_db_if_needed st f = (st, true, 0) := by
  simp [init_db_if_needed, h]

theorem initIter_of_initialized (n : Nat) (st : ProcState)
    (h : st.initialized = true) : initIter n st = (st, true) := by
  induction n with
  | zero => rfl
  | succ m ih => rw [initIter, init_of_initialized st h none]; simp [ih]

/-- C5.  `init_db_if_needed` is idempotent: starting from an empty store
(flag unset, empty schema), invoking it `n ≥ 1` times in sequence gives the
same final state as invoking it once, every one of the `n` invocations
succeeds, and re-running the whole DDL sequence against the schema it
produced succeeds again — every "already exists" error (duplicate index,
duplicate column) is swallowed — and leaves the schema unchanged. -/
theorem c5_init_idempotent (n : Nat) (hn : 1 ≤ n) :
    initIter n ⟨false, Schema.emptySchema⟩ = initIter 1 ⟨false, Schema.emptySchema⟩ ∧
    (initIter n ⟨false, Schema.emptySchema⟩).2 = true ∧
    runInitOps (runInitOps Schema.emptySchema initOps none 0).1 initOps none 0 =
      ((runInitOps Schema.emptySchema initOps none 0).1, true, initOps.length) := by
  have hrun := init_from_any_schema Schema.emptySchema
  have hflag : (init_db_if_needed ⟨false, Schema.emptySchema⟩ none).1.initialized = true := by
    rw [init_db_if_needed]
    simpa using hrun.1
  have hsucc : (init_db_if_needed ⟨false, Schema.emptySchema⟩ none).2.1 = true := by
    rw [init_db_if_needed]
    simpa using hrun.1
  have hstep : ∀ m, initIter (m + 1) ⟨false, Schema.emptySchema⟩ =
      ((init_db_if_needed ⟨false, Schema.emptySchema⟩ none).1, true) := by
    intro m
    rw [initIter, initIter_of_initialized m _ hflag]
    simp [hsucc]
  obtain ⟨m, rfl⟩ : ∃ m, n = m + 1 := ⟨n - 1, by omega⟩
  refine ⟨?_, ?_, ?_⟩
  · rw [hstep m, hstep 0]
  · rw [hstep m]
  · have h2 := init_from_any_schema (runInitOps Schema.emptySchema initOps none 0).1
    refine Prod.ext ?_ (Prod.ext (by simpa using h2.1) (by simpa using h2.2))
    have hfix : runInitOps (runInitOps Schema.emptySchema initOps none 0).1 initOps none 0 =
        ((runInitOps Schema.emptySchema initOps none 0).1,
          (runInitOps (runInitOps Schema.emptySchema initOps none 0).1 initOps none 0).2) := by
      decide
    exact congrArg Prod.fst hfix

/-- Witness for C5: five invocations against the empty store equal one
invocation, and all succeed. -/
theorem c5_init_idempotent_witness :
    initIter 5 ⟨false, Schema.emptySchema⟩ = initIter 1 ⟨false, Schema.emptySchema⟩ ∧
    (initIter 5 ⟨false, Schema.emptySchema⟩).2 = true :=
  ⟨(c5_init_idempotent 5 (by decide)).1, (c5_init_idempotent 5 (by decide)).2.1⟩

/-- C10.  The process-wide `_initialized` flag is set only after every
schema statement and the commit succeeded: a failure injected at any
statement position leaves the call unsuccessful with the flag still unset;
while the flag is unset a (failure-free) invocation runs the full DDL
sequence from the beginning, succeeds, and sets the flag; and once the flag
is set every invocation returns immediately, issuing no database call at
all. -/
theorem c10_initialized_flag (st : ProcState) (k : Nat) :
    (st.initialized = false → k < initOps.length →
      (init_db_if_needed st (some k)).2.1 = false ∧
      (init_db_if_needed st (some k)).1.initialized = false) ∧
    (∀ f, st.initialized = true → init_db_if_needed st f = (st, true, 0)) ∧
    (st.initialized = false →
      (init_db_if_needed st none).2.1 = true ∧
      (init_db_if_needed st none).1.initialized = true ∧
      (init_db_if_needed st none).2.2 = initOps.length) := by
  refine ⟨?_, fun f h => init_of_initialized st h f, ?_⟩
  · intro h hk
    have hfail := runInitOps_fail initOps st.schema 0 k (by omega) (by omega)
    rw [init_db_if_needed]
    simp [h, hfail]
  · intro h
    have hrun := init_from_any_schema st.schema
    rw [init_db_if_needed]
    simp [h, hrun.1, hrun.2]

/-- Witness for C10: against the empty store, a failure injected at the
fourth statement leaves the flag unset and the call failed, while an
unimpeded call sets the flag. -/
theorem c10_initialized_flag_witness :
    (init_db_if_needed ⟨false, Schema.emptySchema⟩ (some 3)).2.1 = false ∧
    (init_db_if_needed ⟨false, Schema.emptySchema⟩ (some 3)).1.initialized = false ∧
    (init_db_if_needed ⟨false, Schema.emptySchema⟩ none).1.initialized = true :=
  ⟨((c10_initialized_flag ⟨false, Schema.emptySchema⟩ 3).1 rfl (by decide)).1,
   ((c10_initialized_flag ⟨false, Schema.emptySchema⟩ 3).1 rfl (by decide)).2,
   ((c10_initialized_flag ⟨false, Schema.emptySchema⟩ 3).2.2 rfl).2.1⟩

theorem mem_insertByKey {α : Type} (key : α → Int) (x a : α) (l : List α) :
    a ∈ insertByKey key x l ↔ a = x ∨ a ∈ l := by
  induction l with
  | nil => simp [insertByKey]
  | cons b bs ih =>
    rw [insertByKey]
    by_cases hx : key x ≤ key b
    · rw [if_pos hx]
      simp
    · rw [if_neg hx]
      simp [List.mem_cons, ih]
      tauto

theorem mem_sortByKey {α : Type} (key : α → Int) (a : α) (l : List α) :
    a ∈ sortByKey key l ↔ a ∈ l := by
  induction l with
  | nil => simp [sortByKey]
  | cons b bs ih =>
    rw [sortByKey, mem_insertByKey]
    simp [ih]

theorem pairwise_insertByKey {α : Type} (key : α → Int) (x : α) (l : List α)
    (h : l.Pairwise (fun a b => key a ≤ key b)) :
    (insertByKey key x l).Pairwise (fun a b => key a ≤ key b) := by
  induction l with
  | nil => simp [insertByKey]
  | cons b bs ih =>
    rw [insertByKey]
    by_cases hx : key x ≤ key b
    · rw [if_pos hx]
      refine List.Pairwise.cons ?_ h
      intro y hy
      rcases List.mem_cons.mp hy with rfl | hy2
      · exact hx
      · exact le_trans hx (List.rel_of_pairwise_cons h hy2)
    · rw [if_neg hx]
      have hb := List.pairwise_cons.mp h
      refine List.Pairwise.cons ?_ (ih hb.2)
      intro y hy
      rcases (mem_insertByKey key x y bs).mp hy with rfl | hy2
      · exact le_of_not_le hx
      · exact hb.1 y hy2

theorem sortByKey_sorted {α : Type} (key : α → Int) (l : List α) :
    (sortByKey key l).Pairwise (fun a b => key a ≤ key b) := by
  induction l with
  | nil => simp [sortByKey]
  | cons a as ih =>
    rw [sortByKey]
    exact pairwise_insertByKey key a _ ih

theorem mem_cpuQuery (db : DB) (since : Int) (x : Int × ℚ × ℚ) :
    x ∈ cpuQuery db since ↔
      ∃ r ∈ db.cpu_samples, since ≤ r.ts ∧ x = (r.ts, r.total_util, r.cpu_temp) := by
  rw [cpuQuery, mem_sortByKey, List.mem_map]
  constructor
  · rintro ⟨r, hr, rfl⟩
    rw [List.mem_filter] at hr
    exact ⟨r, hr.1, by simpa using hr.2, rfl⟩
  · rintro ⟨r, hr, hts, rfl⟩
    exact ⟨r, List.mem_filter.mpr ⟨hr, by simpa using hts⟩, rfl⟩

theorem mem_memQuery (db : DB) (since : Int) (x : Int × ℚ × ℚ) :
    x ∈ memQuery db since ↔
      ∃ r ∈ db.mem_samples, since ≤ r.ts ∧ x = (r.ts, r.used_percent, r.swap_used_percent) := by
  rw [memQuery, mem_sortByKey, List.mem_map]
  constructor
  · rintro ⟨r, hr, rfl⟩
    rw [List.mem_filter] at hr
    exact ⟨r, hr.1, by simpa using hr.2, rfl⟩
  · rintro ⟨r, hr, hts, rfl⟩
    exact ⟨r, List.mem_filter.mpr ⟨hr, by simpa using hts⟩, rfl⟩

theorem mem_outerMerge (cs ms : List (Int × ℚ × ℚ))
    (x : Int × Option (ℚ × ℚ) × Option (ℚ × ℚ)) :
    x ∈ outerMerge cs ms ↔
      ((∃ c ∈ cs, (∀ m ∈ ms, m.1 ≠ c.1) ∧ x = (c.1, some c.2, none)) ∨
       (∃ c ∈ cs, ∃ m ∈ ms, m.1 = c.1 ∧ x = (c.1, some c.2, some m.2)) ∨
       (∃ m ∈ ms, (∀ c ∈ cs, c.1 ≠ m.1) ∧ x = (m.1, none, some m.2))) := by
  rw [outerMerge, List.mem_append]
  constructor
  · rintro (hl | hr)
    · rw [List.mem_flatMap] at hl
      obtain ⟨c, hc, hx⟩ := hl
      cases hfil : ms.filter (fun m => decide (m.1 = c.1)) with
      | nil =>
        rw [hfil] at hx
        simp at hx
        left
        refine ⟨c, hc, fun m hm => ?_, hx⟩
        have := List.filter_eq_nil_iff.mp hfil m hm
        simpa using this
      | cons y ys =>
        rw [hfil] at hx
        rw [List.mem_map] at hx
        obtain ⟨m, hm, hxm⟩ := hx
        have hm2 : m ∈ ms.filter (fun m => decide (m.1 = c.1)) := by
          rw [hfil]; exact hm
        rw [List.mem_filter] at hm2
        right; left
        exact ⟨c, hc, m, hm2.1, by simpa using hm2.2, hxm.symm⟩
    · rw [List.mem_map] at hr
      obtain ⟨m, hm, hxm⟩ := hr
      rw [List.mem_filter] at hm
      right; right
      refine ⟨m, hm.1, fun c hc => ?_, hxm.symm⟩
      have hany := hm.2
      simp only [Bool.not_eq_true', List.any_eq_false] at hany
      simpa using hany c hc
  · rintro (⟨c, hc, hnone, rfl⟩ | ⟨c, hc, m, hm, hkey, rfl⟩ | ⟨m, hm, hnone, rfl⟩)
    · left
      rw [List.mem_flatMap]
      refine ⟨c, hc, ?_⟩
      have hfil : ms.filter (fun m => decide (m.1 = c.1)) = [] :=
        List.filter_eq_nil_iff.mpr (fun m hm => by simpa using hnone m hm)
      rw [hfil]
      simp
    · left
      rw [List.mem_flatMap]
      refine ⟨c, hc, ?_⟩
      have hmem : m ∈ ms.filter (fun m => decide (m.1 = c.1)) :=
        List.mem_filter.mpr ⟨hm, by simpa using hkey⟩
      cases hfil : ms.filter (fun m => decide (m.1 = c.1)) with
      | nil => rw [hfil] at hmem; simp at hmem
      | cons y ys =>
        rw [hfil] at hmem
        exact List.mem_map.mpr ⟨m, hmem, rfl⟩
    · right
      rw [List.mem_map]
      refine ⟨m, ?_, rfl⟩
      rw [List.mem_filter]
      refine ⟨hm, ?_⟩
      simp only [Bool.not_eq_true', List.any_eq_false]
      intro c hc
      simpa using hnone c hc

theorem mem_get_cpu_mem_history (db : DB) (now : ℚ) (minutes : Int) (jr : JoinedRow) :
    jr ∈ get_cpu_mem_history db now minutes ↔
      ∃ p ∈ outerMerge (cpuQuery db (pyInt (now - (minutes : ℚ) * 60)))
          (memQuery db (pyInt (now - (minutes : ℚ) * 60))),
        jr = ⟨p.1, p.2.1, p.2.2, toDatetime p.1⟩ := by
  rw [get_cpu_mem_history, List.mem_map]
  constructor
  · rintro ⟨p, hp, rfl⟩
    exact ⟨p, (mem_sortByKey _ p _).mp hp, rfl⟩
  · rintro ⟨p, hp, rfl⟩
    exact ⟨p, (mem_sortByKey _ p _).mpr hp, rfl⟩

/-- C4.  `get_cpu_mem_history` evaluated at wall-clock `now` with window
`minutes`: a timestamp appears in the result exactly when it is in the
window (`ts ≥ int(now − minutes·60)`) and carried by a CPU or a memory row
(outer-join semantics: a `ts` present in only one series still appears);
for every returned row, the CPU-side (resp. memory-side) columns are empty
exactly when no CPU (resp. memory) row in the window carries its `ts`; the
result is ordered ascending by `ts`; and every row carries the
human-readable timestamp derived from its `ts`. -/
theorem c4_cpu_mem_history_outer_join (db : DB) (now : ℚ) (minutes : Int) :
    (∀ t : Int,
      (∃ jr ∈ get_cpu_mem_history db now minutes, jr.ts = t) ↔
        (pyInt (now - (minutes : ℚ) * 60) ≤ t ∧
          ((∃ r ∈ db.cpu_samples, r.ts = t) ∨ (∃ m ∈ db.mem_samples, m.ts = t)))) ∧
    (∀ jr ∈ get_cpu_mem_history db now minutes,
      (jr.cpu = none ↔
        ¬ ∃ r ∈ db.cpu_samples, r.ts = jr.ts ∧ pyInt (now - (minutes : ℚ) * 60) ≤ r.ts) ∧
      (jr.mem = none ↔
        ¬ ∃ m ∈ db.mem_samples, m.ts = jr.ts ∧ pyInt (now - (minutes : ℚ) * 60) ≤ m.ts)) ∧
    (get_cpu_mem_history db now minutes).Pairwise (fun a b => a.ts ≤ b.ts) ∧
    (∀ jr ∈ get_cpu_mem_history db now minutes, jr.timestamp = toDatetime jr.ts) := by
  refine ⟨?_, ?_, ?_, ?_⟩
  · intro t
    constructor
    · rintro ⟨jr, hjr, rfl⟩
      obtain ⟨p, hp, rfl⟩ := (mem_get_cpu_mem_history db now minutes _).mp hjr
      rcases (mem_outerMerge _ _ p).mp hp with
        ⟨c, hc, _, hpx⟩ | ⟨c, hc, m, _, _, hpx⟩ | ⟨m, hm, _, hpx⟩
      · obtain ⟨r, hr, hts, rfl⟩ := (mem_cpuQuery db _ c).mp hc
        rw [hpx]
        exact ⟨hts, Or.inl ⟨r, hr, rfl⟩⟩
      · obtain ⟨r, hr, hts, rfl⟩ := (mem_cpuQuery db _ c).mp hc
        rw [hpx]
        exact ⟨hts, Or.inl ⟨r, hr, rfl⟩⟩
      · obtain ⟨r, hr, hts, rfl⟩ := (mem_memQuery db _ m).mp hm
        rw [hpx]
        exact ⟨hts, Or.inr ⟨r, hr, rfl⟩⟩
    · rintro ⟨hsince, ⟨r, hr, rfl⟩ | ⟨m, hm, rfl⟩⟩
      · have hc : (r.ts, r.total_util, r.cpu_temp) ∈
            cpuQuery db (pyInt (now - (minutes : ℚ) * 60)) :=
          (mem_cpuQuery db _ _).mpr ⟨r, hr, hsince, rfl⟩
        by_cases hmq : ∃ m ∈ memQuery db (pyInt (now - (minutes : ℚ) * 60)), m.1 = r.ts
        · obtain ⟨m, hm, hmt⟩ := hmq
          refine ⟨⟨r.ts, some (r.total_util, r.cpu_temp), some m.2, toDatetime r.ts⟩,
            (mem_get_cpu_mem_history db now minutes _).mpr
              ⟨(r.ts, some (r.total_util, r.cpu_temp), some m.2), ?_, rfl⟩, rfl⟩
          exact (mem_outerMerge _ _ _).mpr (Or.inr (Or.inl ⟨_, hc, m, hm, hmt, rfl⟩))
        · refine ⟨⟨r.ts, some (r.total_util, r.cpu_temp), none, toDatetime r.ts⟩,
            (mem_get_cpu_mem_history db now minutes _).mpr
              ⟨(r.ts, some (r.total_util, r.cpu_temp), none), ?_, rfl⟩, rfl⟩
          refine (mem_outerMerge _ _ _).mpr (Or.inl ⟨_, hc, fun m hm heq => ?_, rfl⟩)
          exact hmq ⟨m, hm, heq⟩
      · have hm2 : (m.ts, m.used_percent, m.swap_used_percent) ∈
            memQuery db (pyInt (now - (minutes : ℚ) * 60)) :=
          (mem_memQuery db _ _).mpr ⟨m, hm, hsince, rfl⟩
        by_cases hcq : ∃ c ∈ cpuQuery db (pyInt (now - (minutes : ℚ) * 60)), c.1 = m.ts
        · obtain ⟨c, hc, hct⟩ := hcq
          refine ⟨⟨c.1, some c.2, some (m.used_percent, m.swap_used_percent),
              toDatetime c.1⟩,
            (mem_get_cpu_mem_history db now minutes _).mpr
              ⟨(c.1, some c.2, some (m.used_percent, m.swap_used_percent)), ?_, rfl⟩, hct⟩
          exact (mem_outerMerge _ _ _).mpr
            (Or.inr (Or.inl ⟨c, hc, _, hm2, hct.symm, rfl⟩))
        · refine ⟨⟨m.ts, none, some (m.used_percent, m.swap_used_percent),
              toDatetime m.ts⟩,
            (mem_get_cpu_mem_history db now minutes _).mpr
              ⟨(m.ts, none, some (m.used_percent, m.swap_used_percent)), ?_, rfl⟩, rfl⟩
          refine (mem_outerMerge _ _ _).mpr (Or.inr (Or.inr ⟨_, hm2, fun c hc heq => ?_, rfl⟩))
          exact hcq ⟨c, hc, heq⟩
  · intro jr hjr
    obtain ⟨p, hp, rfl⟩ := (mem_get_cpu_mem_history db now minutes _).mp hjr
    rcases (mem_outerMerge _ _ p).mp hp with
      ⟨c, hc, hnone, hpx⟩ | ⟨c, hc, m, hm, hkey, hpx⟩ | ⟨m, hm, hnone, hpx⟩
    · subst hpx
      obtain ⟨r, hr, hts, hw⟩ := (mem_cpuQuery db _ c).mp hc
      refine ⟨iff_of_false (by simp)
        (not_not_intro ⟨r, hr, show r.ts = c.1 by rw [hw], hts⟩),
        iff_of_true rfl ?_⟩
      rintro ⟨m, hmm, hmt, hmw⟩
      exact hnone (m.ts, m.used_percent, m.swap_used_percent)
        ((mem_memQuery db _ _).mpr ⟨m, hmm, hmw, rfl⟩) hmt
    · subst hpx
      obtain ⟨r, hr, hts, hw⟩ := (mem_cpuQuery db _ c).mp hc
      obtain ⟨r2, hr2, hts2, hw2⟩ := (mem_memQuery db _ m).mp hm
      refine ⟨iff_of_false (by simp)
        (not_not_intro ⟨r, hr, show r.ts = c.1 by rw [hw], hts⟩),
        iff_of_false (by simp)
        (not_not_intro ⟨r2, hr2, show r2.ts = c.1 by rw [← hkey, hw2], hts2⟩)⟩
    · subst hpx
      obtain ⟨r2, hr2, hts2, hw2⟩ := (mem_memQuery db _ m).mp hm
      refine ⟨iff_of_true rfl ?_,
        iff_of_false (by simp)
        (not_not_intro ⟨r2, hr2, show r2.ts = m.1 by rw [hw2], hts2⟩)⟩
      rintro ⟨r, hrr, hrt, hrw⟩
      exact hnone (r.ts, r.total_util, r.cpu_temp)
        ((mem_cpuQuery db _ _).mpr ⟨r, hrr, hrw, rfl⟩) hrt
  · rw [get_cpu_mem_history]
    exact (sortByKey_sorted
      (fun p : Int × Option (ℚ × ℚ) × Option (ℚ × ℚ) => p.1) _).map _ (fun a b h => h)
  · intro jr hjr
    obtain ⟨p, hp, rfl⟩ := (mem_get_cpu_mem_history db now minutes _).mp hjr
    rfl

/-- Witness for C4: the spec's scenario — CPU-only data at `ts = 100` and
memory-only data at `ts = 105`, queried at `now = 160` with a one-minute
window (`since = 100`) — returns exactly two rows, `ts = 100` with the
memory columns empty and `ts = 105` with the CPU columns empty, sorted
ascending. -/
theorem c4_cpu_mem_history_outer_join_witness :
    get_cpu_mem_history c4Db 160 1 =
      [⟨100, some (50, 40), none, toDatetime 100⟩,
       ⟨105, none, some (60, 2), toDatetime 105⟩] ∧
    (get_cpu_mem_history c4Db 160 1).Pairwise (fun a b => a.ts ≤ b.ts) :=
  ⟨by with_unfolding_all decide, (c4_cpu_mem_history_outer_join c4Db 160 1).2.2.1⟩

end Sentra
